import Mathlib

/-!
Verification of the calculation engine of the S&P 500 interest calculator.

The source is TypeScript; its numeric functions are embedded shallowly:

* JavaScript `number` arithmetic is idealised as exact rational arithmetic (ℚ).
  The one place the idealisation cannot hide is division by zero: in JS,
  `0/0 = NaN` and `x/0 = ±Infinity`, and these non-finite values propagate
  through every later operation and make every comparison (`<`, `>=`, `<=`)
  return `false`.  We model "the computation produced a non-finite number" as
  `none : Option ℚ`, and comparisons against `none` as `false`, exactly
  mirroring JS comparison semantics on NaN.
* `Math.round x` on a finite number is `⌊x + 1/2⌋`, which coincides with
  Mathlib's `round` on ℚ; `Math.round NaN = NaN` is `Option.map round`.
* The `while` loops (binary search over months, linear search over rates) are
  embedded with an explicit fuel argument so the definitions are structurally
  recursive and executable; the fuel supplied at each call site strictly
  dominates the loop's iteration count, so it is never exhausted.
* `Math.pow(1.03, month / 12)` in the inflation adjustment has a fractional
  exponent; it is idealised as real `rpow`, the only non-executable corner of
  the embedding (no claim depends on that field's value).
-/

/-- Constants from the source (`SP500_INTEREST` etc.). -/
def SP500_INTEREST : ℚ := 10

def SAVINGS_INTEREST : ℚ := 3/2

def BONDS_INTEREST : ℚ := 9/2

def INFLATION_RATE : ℚ := 3

def BEST_YEAR : ℚ := 37

def WORST_YEAR : ℚ := -37

/-- Source line `const monthlyRate = annualRate / 100 / 12` of `calculateFutureValue`. -/
def monthlyRate (annualRate : ℚ) : ℚ := annualRate / 100 / 12

/-- The value computed by the body of `calculateFutureValue` when its divisions
are defined (monthly rate nonzero):
`principal * (1+r)^months + monthlyContribution * (((1+r)^months - 1) / r)`. -/
def fvVal (principal monthlyContribution annualRate : ℚ) (months : ℕ) : ℚ :=
  principal * (1 + monthlyRate annualRate) ^ months +
    monthlyContribution *
      (((1 + monthlyRate annualRate) ^ months - 1) / monthlyRate annualRate)

/-- Embedding of `calculateFutureValue` from the source.  When `monthlyRate = 0` the source
evaluates `(Math.pow(1, months) - 1) / 0 = 0 / 0 = NaN` and returns `NaN`
(the zero-rate fallback demanded by the spec is absent); we return `none`. -/
def calculateFutureValue (principal monthlyContribution annualRate : ℚ)
    (months : ℕ) : Option ℚ :=
  if monthlyRate annualRate = 0 then none
  else some (fvVal principal monthlyContribution annualRate months)

/-- JS `value < target` where `value` may be NaN: `NaN < t` is `false`. -/
def fvLt (value : Option ℚ) (target : ℚ) : Bool :=
  match value with
  | none => false
  | some v => decide (v < target)

/-- JS `value >= target` where `value` may be NaN: `NaN >= t` is `false`. -/
def fvGe (value : Option ℚ) (target : ℚ) : Bool :=
  match value with
  | none => false
  | some v => decide (target ≤ v)

/-- JS `a <= b` where either side may be NaN (then the comparison is `false`). -/
def fvLe (a b : Option ℚ) : Bool :=
  match a, b with
  | some x, some y => decide (x ≤ y)
  | _, _ => false

/-- Embedding of `calculateRequiredInvestment` from the source.  Divisions: by the monthly
rate (zero iff `annualRate = 0`, giving NaN) and by `(1+r)^months` (zero iff
`annualRate = -1200` and `months ≥ 1`, giving a non-finite quotient); both
non-finite outcomes are `none`.  Otherwise the source returns
`Math.max(0, (targetAmount - fvContributions) / (1+r)^months)`. -/
def calculateRequiredInvestment (targetAmount monthlyContribution annualRate : ℚ)
    (months : ℕ) : Option ℚ :=
  if monthlyRate annualRate = 0 then none
  else if (1 + monthlyRate annualRate) ^ months = 0 then none
  else
    some (max 0 ((targetAmount - fvVal 0 monthlyContribution annualRate months) /
      (1 + monthlyRate annualRate) ^ months))

/-- One month's snapshot (`MonthData` in the source).  Fields produced through
`calculateFutureValue` are `Option ℤ` after `Math.round` (`none` = NaN);
`contributions` involves no division and is always finite. -/
structure MonthData where
  month : ℕ
  year : ℕ
  balance : Option ℤ
  contributions : ℤ
  gains : Option ℤ
  inflationAdjusted : Option ℤ
  savingsAccount : Option ℤ
  bonds : Option ℤ
  bestCase : Option ℤ
  worstCase : Option ℤ
deriving DecidableEq

/-- The loop body of `calculateProjections` for one month.  The inflation
adjustment divides by `Math.pow(1 + 3/100, month/12)`, a real power with a
fractional exponent, hence the real-number detour (and `noncomputable`). -/
noncomputable def projectionPoint (initialInvestment monthlyContribution annualRate : ℚ)
    (month : ℕ) : MonthData :=
  let balance := calculateFutureValue initialInvestment monthlyContribution annualRate month
  let contributions : ℚ := initialInvestment + monthlyContribution * (month : ℚ)
  { month := month
    year := month / 12
    balance := balance.map round
    contributions := round contributions
    gains := balance.map (fun b => round (b - contributions))
    inflationAdjusted := balance.map (fun b =>
      round ((b : ℝ) / (1 + (INFLATION_RATE : ℝ) / 100) ^ ((month : ℝ) / 12)))
    savingsAccount :=
      (calculateFutureValue initialInvestment monthlyContribution SAVINGS_INTEREST month).map round
    bonds :=
      (calculateFutureValue initialInvestment monthlyContribution BONDS_INTEREST month).map round
    bestCase :=
      (calculateFutureValue initialInvestment monthlyContribution BEST_YEAR month).map round
    worstCase :=
      (calculateFutureValue initialInvestment monthlyContribution WORST_YEAR month).map round }

/-- Embedding of `calculateProjections`: the source pushes one `MonthData` per month
`month = 1 .. years*12`, in order. -/
noncomputable def calculateProjections (initialInvestment monthlyContribution annualRate : ℚ)
    (years : ℕ) : List MonthData :=
  (List.range (years * 12)).map
    (fun i => projectionPoint initialInvestment monthlyContribution annualRate (i + 1))

/-- The `while (low < high)` binary-search loop of `calculateYearsToMilestone`,
with fuel.  Each iteration strictly shrinks `high - low`, so any fuel
`≥ high - low` gives the loop's exact result. -/
def milestoneLoop (currentBalance monthlyContribution annualRate targetAmount : ℚ) :
    ℕ → ℕ → ℕ → ℕ
  | 0, low, _ => low
  | fuel + 1, low, high =>
    if low < high then
      let mid := (low + high) / 2
      if fvLt (calculateFutureValue currentBalance monthlyContribution annualRate mid)
          targetAmount then
        milestoneLoop currentBalance monthlyContribution annualRate targetAmount fuel
          (mid + 1) high
      else
        milestoneLoop currentBalance monthlyContribution annualRate targetAmount fuel low mid
    else low

/-- Embedding of `calculateYearsToMilestone` from the source: early return 0 when the
balance already meets the target, otherwise binary search over `[0, 1200]`
months and return `low / 12` years. -/
def calculateYearsToMilestone (currentBalance monthlyContribution annualRate targetAmount : ℚ) :
    ℚ :=
  if targetAmount ≤ currentBalance then 0
  else
    ((milestoneLoop currentBalance monthlyContribution annualRate targetAmount 1200 0 1200 : ℕ)
      : ℚ) / 12

/-- C1: the spec demands `futureValue(1000, 100, 0, 12) = 2200` (zero-rate
fallback), but the code divides by the zero monthly rate and returns NaN. -/
theorem futureValue_zero_rate_is_nan :
    calculateFutureValue 1000 100 0 12 = none ∧
      calculateFutureValue 1000 100 0 12 ≠ some 2200 := by
  constructor
  · simp [calculateFutureValue, monthlyRate]
  · intro h
    simp [calculateFutureValue, monthlyRate] at h

lemma monthlyRate_eq_zero_iff (annualRate : ℚ) :
    monthlyRate annualRate = 0 ↔ annualRate = 0 := by
  unfold monthlyRate
  rw [div_div, div_eq_zero_iff]
  norm_num

lemma calculateFutureValue_of_ne_zero (p c r : ℚ) (n : ℕ) (hr : r ≠ 0) :
    calculateFutureValue p c r n = some (fvVal p c r n) := by
  unfold calculateFutureValue
  rw [if_neg (fun h => hr ((monthlyRate_eq_zero_iff r).mp h))]

lemma fvVal_zero_principal (c r : ℚ) (n : ℕ) :
    fvVal 0 c r n = c * (((1 + monthlyRate r) ^ n - 1) / monthlyRate r) := by
  unfold fvVal
  ring

lemma fvVal_split (p c r : ℚ) (n : ℕ) :
    fvVal p c r n = p * (1 + monthlyRate r) ^ n + fvVal 0 c r n := by
  unfold fvVal
  ring

/-- C2: feeding `requiredPrincipal(T, c, r, n)` back into `futureValue` with the
same parameters reproduces `T` exactly, whenever the algebraic solution is
defined (nonzero rate, nonzero growth factor) and non-negative (so the zero
clamp does not trigger). -/
theorem requiredInvestment_roundtrip (T c r : ℚ) (n : ℕ) (hr : r ≠ 0)
    (hgn : (1 + monthlyRate r) ^ n ≠ 0)
    (hnonneg : 0 ≤ (T - fvVal 0 c r n) / (1 + monthlyRate r) ^ n) :
    (calculateRequiredInvestment T c r n).bind
      (fun P => calculateFutureValue P c r n) = some T := by
  have hmr : ¬ (monthlyRate r = 0) := fun h => hr ((monthlyRate_eq_zero_iff r).mp h)
  unfold calculateRequiredInvestment
  rw [if_neg hmr, if_neg hgn, Option.some_bind,
    calculateFutureValue_of_ne_zero _ _ _ _ hr, max_eq_right hnonneg]
  congr 1
  rw [fvVal_split, div_mul_cancel₀ _ hgn]
  ring

/-- C2 witness: at rate 1200%/yr the monthly growth factor is 2; with target
1000, contribution 100, 2 months, the required principal is 175 and the round
trip gives back exactly 1000. -/
theorem requiredInvestment_roundtrip_witness :
    (calculateRequiredInvestment 1000 100 1200 2).bind
      (fun P => calculateFutureValue P 100 1200 2) = some 1000 :=
  requiredInvestment_roundtrip 1000 100 1200 2 (by norm_num)
    (by norm_num [monthlyRate]) (by norm_num [monthlyRate, fvVal])

/-- C4 (amended to a strictly positive rate): for `rate > 0`,
`principal ≥ 0`, `contribution ≥ 0`, `futureValue` is monotonically
non-decreasing in the period count.  At rate exactly 0 the code yields NaN
(see the counterexample), which is why the claim's `rate ≥ 0` fails. -/
theorem futureValue_monotone (p c r : ℚ) (n1 n2 : ℕ) (hr : 0 < r)
    (hp : 0 ≤ p) (hc : 0 ≤ c) (h12 : n1 ≤ n2) :
    fvLe (calculateFutureValue p c r n1) (calculateFutureValue p c r n2) = true := by
  rw [calculateFutureValue_of_ne_zero _ _ _ _ (ne_of_gt hr),
    calculateFutureValue_of_ne_zero _ _ _ _ (ne_of_gt hr)]
  simp only [fvLe, decide_eq_true_eq]
  have hmr : 0 < monthlyRate r := by unfold monthlyRate; positivity
  have hg : (1:ℚ) ≤ 1 + monthlyRate r := by linarith
  have hpow : (1 + monthlyRate r) ^ n1 ≤ (1 + monthlyRate r) ^ n2 :=
    pow_le_pow_right₀ hg h12
  unfold fvVal
  have h1 : p * (1 + monthlyRate r) ^ n1 ≤ p * (1 + monthlyRate r) ^ n2 :=
    mul_le_mul_of_nonneg_left hpow hp
  have h2 : ((1 + monthlyRate r) ^ n1 - 1) / monthlyRate r ≤
      ((1 + monthlyRate r) ^ n2 - 1) / monthlyRate r := by
    apply div_le_div_of_nonneg_right ?_ (le_of_lt hmr)
    · linarith
  have h3 : c * (((1 + monthlyRate r) ^ n1 - 1) / monthlyRate r) ≤
      c * (((1 + monthlyRate r) ^ n2 - 1) / monthlyRate r) :=
    mul_le_mul_of_nonneg_left h2 hc
  linarith

/-- C4 witness: monotone at principal 1000, contribution 100, rate 12%,
months 3 ≤ 5. -/
theorem futureValue_monotone_witness :
    fvLe (calculateFutureValue 1000 100 12 3) (calculateFutureValue 1000 100 12 5) = true :=
  futureValue_monotone 1000 100 12 3 5 (by norm_num) (by norm_num) (by norm_num)
    (by norm_num)

/-- C4 counterexample: at rate exactly 0 (allowed by the claim's `rate ≥ 0`)
`futureValue` is NaN, so the claimed inequality is false even for equal period
counts. -/
theorem futureValue_monotone_counterexample :
    (0:ℚ) ≤ 1000 ∧ (0:ℚ) ≤ 100 ∧ (0:ℚ) ≤ 0 ∧ (0:ℕ) ≤ 12 ∧
      fvLe (calculateFutureValue 1000 100 0 0) (calculateFutureValue 1000 100 0 12) =
        false := by
  refine ⟨by norm_num, by norm_num, le_refl 0, by norm_num, ?_⟩
  simp [calculateFutureValue, monthlyRate, fvLe]

/-- C5 (amended to nonzero rate with positive growth factor): the required
investment is then defined and non-negative, and it is exactly 0 whenever the
contributions alone (`futureValue` with principal 0) meet or exceed the
target.  At rate 0 the code returns NaN, and at rates below -1200%/yr the
negative growth factor flips the sign of the algebraic solution (see the
counterexample), which is why the claim's unrestricted quantifier fails. -/
theorem requiredInvestment_nonneg (T c r : ℚ) (n : ℕ) (hr : r ≠ 0)
    (hg : 0 < 1 + monthlyRate r) :
    (calculateRequiredInvestment T c r n).isSome = true ∧
      0 ≤ (calculateRequiredInvestment T c r n).getD 0 ∧
      (T ≤ fvVal 0 c r n → calculateRequiredInvestment T c r n = some 0) := by
  have hmr : ¬ (monthlyRate r = 0) := fun h => hr ((monthlyRate_eq_zero_iff r).mp h)
  have hgn : (0:ℚ) < (1 + monthlyRate r) ^ n := pow_pos hg n
  unfold calculateRequiredInvestment
  rw [if_neg hmr, if_neg (ne_of_gt hgn)]
  refine ⟨rfl, by simp [le_max_left], ?_⟩
  intro hT
  have hquot : (T - fvVal 0 c r n) / (1 + monthlyRate r) ^ n ≤ 0 :=
    div_nonpos_of_nonpos_of_nonneg (by linarith) (le_of_lt hgn)
  simp [max_eq_left hquot]

/-- C5 witness: target 100, contribution 100, rate 1200%/yr, 2 months; the
contributions alone grow to 300 ≥ 100, and the code returns exactly 0. -/
theorem requiredInvestment_nonneg_witness :
    calculateRequiredInvestment 100 100 1200 2 = some 0 :=
  (requiredInvestment_nonneg 100 100 1200 2 (by norm_num)
    (by norm_num [monthlyRate])).2.2 (by norm_num [fvVal, monthlyRate])

/-- C5 counterexample: at rate -2400%/yr (monthly growth factor -1) and one
month, contributions alone (100) meet the target (0), yet the code returns
100, not 0: the clamp logic assumed a positive growth factor. -/
theorem requiredInvestment_clamp_counterexample :
    calculateFutureValue 0 100 (-2400) 1 = some 100 ∧ (0:ℚ) ≤ 100 ∧
      calculateRequiredInvestment 0 100 (-2400) 1 = some 100 ∧ (100:ℚ) ≠ 0 := by
  refine ⟨?_, by norm_num, ?_, by norm_num⟩
  · rw [calculateFutureValue_of_ne_zero _ _ _ _ (by norm_num)]
    norm_num [fvVal, monthlyRate]
  · norm_num [calculateRequiredInvestment, monthlyRate, fvVal]

lemma fvVal_closed_form (cb mc rate : ℚ) (hr : rate ≠ 0) (k : ℕ) :
    fvVal cb mc rate k =
      (cb + mc / monthlyRate rate) * (1 + monthlyRate rate) ^ k -
        mc / monthlyRate rate := by
  have hr' : monthlyRate rate ≠ 0 := fun h => hr ((monthlyRate_eq_zero_iff rate).mp h)
  unfold fvVal
  field_simp
  ring

/-- Reaching the target is upward closed in the month count: with a nonzero
rate and a positive monthly growth factor, `fvVal` is monotone in one
direction, and when it is non-increasing it never exceeds its month-0 value,
the current balance, which is below the target. -/
lemma geom_reach_mono (A d g cb target : ℚ) (hg : 0 < g) (hc : A - d = cb)
    (hcb : cb < target) (m m' : ℕ) (hmm' : m ≤ m')
    (hm : target ≤ A * g ^ m - d) : target ≤ A * g ^ m' - d := by
  rcases le_or_lt 0 A with hA0 | hA0
  · rcases le_or_lt 1 g with hg1 | hg1
    · have hpow : g ^ m ≤ g ^ m' := pow_le_pow_right₀ hg1 hmm'
      have h1 : A * g ^ m ≤ A * g ^ m' := mul_le_mul_of_nonneg_left hpow hA0
      linarith
    · exfalso
      have hpow : g ^ m ≤ 1 := pow_le_one₀ (le_of_lt hg) (le_of_lt hg1)
      have h1 : A * g ^ m ≤ A * 1 := mul_le_mul_of_nonneg_left hpow hA0
      have h2 : A * 1 = A := mul_one A
      linarith
  · rcases le_or_lt 1 g with hg1 | hg1
    · exfalso
      have hpow : (1:ℚ) ≤ g ^ m := one_le_pow₀ hg1
      have h1 : A * g ^ m ≤ A * 1 := mul_le_mul_of_nonpos_left hpow (le_of_lt hA0)
      have h2 : A * 1 = A := mul_one A
      linarith
    · have hpow : g ^ m' ≤ g ^ m := pow_le_pow_of_le_one (le_of_lt hg) (le_of_lt hg1) hmm'
      have h1 : A * g ^ m ≤ A * g ^ m' := mul_le_mul_of_nonpos_left hpow (le_of_lt hA0)
      linarith

lemma reached_mono (cb mc rate target : ℚ) (hr : rate ≠ 0)
    (hg : 0 < 1 + monthlyRate rate) (hcb : cb < target) :
    ∀ m m' : ℕ, m ≤ m' → target ≤ fvVal cb mc rate m → target ≤ fvVal cb mc rate m' := by
  intro m m' hmm' hm
  rw [fvVal_closed_form cb mc rate hr m] at hm
  rw [fvVal_closed_form cb mc rate hr m']
  exact geom_reach_mono (cb + mc / monthlyRate rate) (mc / monthlyRate rate)
    (1 + monthlyRate rate) cb target hg (by ring) hcb m m' hmm' hm

/-- Binary-search invariant for `milestoneLoop`: every month below the result
is strictly below the target, and the result either reaches the target or is
the initial upper bound `B`. -/
lemma milestoneLoop_spec (cb mc rate target : ℚ) (B : ℕ) (hr : rate ≠ 0)
    (hup : ∀ m m' : ℕ, m ≤ m' → target ≤ fvVal cb mc rate m →
      target ≤ fvVal cb mc rate m') :
    ∀ (fuel low high : ℕ), high - low ≤ fuel → low ≤ high →
      (∀ m, m < low → fvVal cb mc rate m < target) →
      (target ≤ fvVal cb mc rate high ∨ high = B) →
      low ≤ milestoneLoop cb mc rate target fuel low high ∧
        milestoneLoop cb mc rate target fuel low high ≤ high ∧
        (∀ m, m < milestoneLoop cb mc rate target fuel low high →
          fvVal cb mc rate m < target) ∧
        (target ≤ fvVal cb mc rate (milestoneLoop cb mc rate target fuel low high) ∨
          milestoneLoop cb mc rate target fuel low high = B) := by
  intro fuel
  induction fuel with
  | zero =>
    intro low high hfl hlh hlow hhigh
    have heq : low = high := by omega
    subst heq
    exact ⟨le_refl _, le_refl _, hlow, hhigh⟩
  | succ fuel ih =>
    intro low high hfl hlh hlow hhigh
    simp only [milestoneLoop]
    by_cases hlt : low < high
    · rw [if_pos hlt]
      have hmid1 : low ≤ (low + high) / 2 := by omega
      have hmid2 : (low + high) / 2 < high := by omega
      by_cases hcond :
          fvLt (calculateFutureValue cb mc rate ((low + high) / 2)) target = true
      · rw [if_pos hcond]
        have hmidlt : fvVal cb mc rate ((low + high) / 2) < target := by
          rw [calculateFutureValue_of_ne_zero _ _ _ _ hr] at hcond
          simpa [fvLt] using hcond
        have hres := ih ((low + high) / 2 + 1) high (by omega) (by omega) ?_ hhigh
        · exact ⟨by omega, hres.2.1, hres.2.2.1, hres.2.2.2⟩
        · intro m hm
          rcases lt_or_ge m low with h' | h'
          · exact hlow m h'
          · by_contra hge
            push_neg at hge
            exact absurd (hup m ((low + high) / 2) (by omega) hge)
              (not_le.mpr hmidlt)
      · rw [if_neg hcond]
        have hmidge : target ≤ fvVal cb mc rate ((low + high) / 2) := by
          rw [calculateFutureValue_of_ne_zero _ _ _ _ hr] at hcond
          simp only [fvLt, decide_eq_true_eq] at hcond
          exact not_lt.mp hcond
        have hres := ih low ((low + high) / 2) (by omega) (by omega) hlow (Or.inl hmidge)
        exact ⟨hres.1, by omega, hres.2.2.1, hres.2.2.2⟩
    · rw [if_neg hlt]
      have heq : low = high := by omega
      exact ⟨le_refl _, by omega, hlow, by rw [heq]; exact hhigh⟩

/-- C3 (amended to nonzero rate with positive monthly growth factor): if the
balance already meets the target the result is 0; otherwise the result is
P/12 where P is the smallest month count in [0, 1200] whose future value
reaches the target (every earlier month is strictly below it), or the
sentinel 1200/12 = 100 when the target is not reached within 1200 months.
At rate exactly 0 every comparison against the NaN balance is false and the
code returns 0 instead of the sentinel (see the counterexample). -/
theorem yearsToMilestone_first_reach (cb mc rate target : ℚ) (hr : rate ≠ 0)
    (hg : 0 < 1 + monthlyRate rate) :
    (target ≤ cb → calculateYearsToMilestone cb mc rate target = 0) ∧
      (cb < target → ∃ P : ℕ, P ≤ 1200 ∧
        calculateYearsToMilestone cb mc rate target = (P : ℚ) / 12 ∧
        (∀ m : ℕ, m < P → fvVal cb mc rate m < target) ∧
        (target ≤ fvVal cb mc rate P ∨ P = 1200)) := by
  constructor
  · intro h
    unfold calculateYearsToMilestone
    rw [if_pos h]
  · intro h
    have hspec := milestoneLoop_spec cb mc rate target 1200 hr
      (reached_mono cb mc rate target hr hg h) 1200 0 1200 (by omega) (by omega)
      (fun m hm => absurd hm (Nat.not_lt_zero m)) (Or.inr rfl)
    refine ⟨milestoneLoop cb mc rate target 1200 0 1200, hspec.2.1, ?_,
      hspec.2.2.1, hspec.2.2.2⟩
    unfold calculateYearsToMilestone
    rw [if_neg (not_le.mpr h)]

/-- C3 witness: balance 1000 already meets target 500, so the result is 0. -/
theorem yearsToMilestone_first_reach_witness :
    calculateYearsToMilestone 1000 100 1200 500 = 0 :=
  (yearsToMilestone_first_reach 1000 100 1200 500 (by norm_num)
    (by norm_num [monthlyRate])).1 (by norm_num)

/-- At rate 0 every future value is NaN, every `<` comparison is false, so the
binary search always lowers `high` and returns `low = 0` unchanged. -/
lemma milestoneLoop_zero_rate (cb mc target : ℚ) :
    ∀ (fuel low high : ℕ), milestoneLoop cb mc 0 target fuel low high = low := by
  intro fuel
  induction fuel with
  | zero => intro low high; rfl
  | succ fuel ih =>
    intro low high
    simp only [milestoneLoop]
    have hnan : calculateFutureValue cb mc 0 ((low + high) / 2) = none := by
      unfold calculateFutureValue
      rw [if_pos ((monthlyRate_eq_zero_iff 0).mpr rfl)]
    by_cases hlt : low < high
    · rw [if_pos hlt, hnan]
      simp only [fvLt]
      rw [if_neg (by simp)]
      exact ih low ((low + high) / 2)
    · rw [if_neg hlt]

/-- C3 counterexample: balance 100 is below target 1000 and (at rate 0) no
month count ever reaches the target, so the claim predicts the sentinel
1200/12 = 100; the code returns 0 (and 0 is not justified either, since the
month-0 balance does not meet the target). -/
theorem yearsToMilestone_zero_rate_counterexample :
    (100:ℚ) < 1000 ∧
      calculateYearsToMilestone 100 100 0 1000 = 0 ∧
      fvGe (calculateFutureValue 100 100 0 0) 1000 = false ∧
      (0:ℚ) ≠ 1200 / 12 := by
  refine ⟨by norm_num, ?_, ?_, by norm_num⟩
  · unfold calculateYearsToMilestone
    rw [if_neg (by norm_num), milestoneLoop_zero_rate]
    norm_num
  · simp [calculateFutureValue, monthlyRate, fvGe]

/-- C6: the projection series has exactly `years * 12` points, in
chronological order: the point at 0-based index k is month k+1 with year
`(k+1) / 12` (floored). -/
theorem projections_shape (p c r : ℚ) (y k : ℕ) :
    (calculateProjections p c r y).length = y * 12 ∧
      (calculateProjections p c r y)[k]?.map (fun pt => (pt.month, pt.year)) =
        if k < y * 12 then some (k + 1, (k + 1) / 12) else none := by
  constructor
  · simp [calculateProjections]
  · unfold calculateProjections
    by_cases hk : k < y * 12
    · rw [if_pos hk, List.getElem?_map, List.getElem?_range hk]
      simp [projectionPoint]
    · rw [if_neg hk]
      have hlen :
          ((List.range (y * 12)).map (fun i => projectionPoint p c r (i + 1))).length ≤ k := by
        simp only [List.length_map, List.length_range]
        omega
      rw [List.getElem?_eq_none hlen, Option.map_none']

/-- C7 (amended): each emitted point's `gains` field is the rounding of the
unrounded `balance - contributions`; when the cumulative contribution
`principal + contribution * month` is a whole number `z` (e.g. integer
inputs) this equals the rounded balance field minus the contributions field
exactly, as the claim states — but for fractional inputs the three
independently rounded fields can disagree by one (see the counterexample),
and the rate must be nonzero for the fields to be numbers at all. -/
theorem projections_gains (p c r : ℚ) (y k : ℕ) (z : ℤ) (hr : r ≠ 0)
    (hk : k < y * 12) (hz : p + c * ((k : ℚ) + 1) = (z : ℚ)) :
    (calculateProjections p c r y)[k]?.map
        (fun pt => (pt.balance, pt.contributions, pt.gains)) =
      some (some (round (fvVal p c r (k + 1))), z,
        some (round (fvVal p c r (k + 1)) - z)) := by
  unfold calculateProjections
  rw [List.getElem?_map, List.getElem?_range hk]
  unfold projectionPoint
  simp only [Option.map_some']
  rw [calculateFutureValue_of_ne_zero _ _ _ _ hr]
  simp only [Option.map_some']
  have hcast : (((k + 1 : ℕ)) : ℚ) = (k : ℚ) + 1 := by push_cast; ring
  rw [hcast, hz, round_intCast, round_sub_int]

/-- C7 witness: with integer inputs (10000 principal, 500/month, 10%/yr) the
month-1 point satisfies gains = balance - contributions on the rounded
fields, with contributions 10500. -/
theorem projections_gains_witness :
    (calculateProjections 10000 500 10 1)[0]?.map
        (fun pt => (pt.balance, pt.contributions, pt.gains)) =
      some (some (round (fvVal 10000 500 10 1)), 10500,
        some (round (fvVal 10000 500 10 1) - 10500)) :=
  projections_gains 10000 500 10 1 0 10500 (by norm_num) (by norm_num) (by norm_num)

/-- C7 counterexample: principal 0, contribution 1/5, rate 1200%/yr (monthly
growth factor 2), month 2: unrounded balance 3/5, contributions 2/5, gains
1/5; after rounding at emission the fields are 1, 0 and 0, and
0 ≠ 1 - 0: the rounded gains field is not the difference of the other two
rounded fields. -/
theorem projections_gains_counterexample :
    (calculateProjections 0 (1/5) 1200 1)[1]?.map
        (fun pt => (pt.gains, pt.balance, pt.contributions)) =
      some (some 0, some 1, 0) ∧ (0 : ℤ) ≠ 1 - 0 := by
  constructor
  · unfold calculateProjections projectionPoint
    rw [List.getElem?_map, List.getElem?_range (show (1:ℕ) < 1 * 12 by norm_num)]
    simp only [Option.map_some']
    rw [calculateFutureValue_of_ne_zero _ _ _ _ (by norm_num)]
    simp only [Option.map_some']
    norm_num [fvVal, monthlyRate, round_eq]
  · norm_num

/-- JS subtraction lifted to possibly-NaN operands (`NaN - x = NaN`). -/
def optSub (a b : Option ℤ) : Option ℤ :=
  match a, b with
  | some x, some y => some (x - y)
  | _, _ => none

/-- Embedding of `InvestmentMetrics` from the source.  Monetary fields that pass through
`Math.round` of possibly-NaN values are `Option ℤ`; the milestone years and
the required rate are plain rationals (their searches return plain numbers);
`withdrawalSustainability` is a plain number. -/
structure InvestmentMetrics where
  finalBalance : Option ℤ
  totalContributions : ℤ
  totalGains : Option ℤ
  inflationAdjustedValue : Option ℤ
  monthlyIncome : Option ℤ
  yearsTo1M : ℚ
  yearsTo2M : ℚ
  yearsTo5M : ℚ
  vsSavings : Option ℤ
  vsBonds : Option ℤ
  requiredRate : ℚ
  withdrawalSustainability : ℕ
deriving DecidableEq

/-- The `for (let rate = 0; rate <= 50; rate += 0.1) { ... break }` search of
`calculateInvestmentMetrics`, fuel-indexed; the float steps are idealised as
the exact candidates k/10, k = 0..500.  Returns the first satisfying
candidate, else the initial value 0. -/
def requiredRateLoop (initialInvestment monthlyContribution : ℚ) (months : ℕ)
    (targetBalance : ℚ) : ℕ → ℕ → ℚ
  | 0, _ => 0
  | fuel + 1, k =>
    if k ≤ 500 then
      if fvGe
          (calculateFutureValue initialInvestment monthlyContribution ((k : ℚ) / 10) months)
          targetBalance then
        (k : ℚ) / 10
      else
        requiredRateLoop initialInvestment monthlyContribution months targetBalance fuel (k + 1)
    else 0

/-- The record built by `calculateInvestmentMetrics` from the final month.
`Math.round` applied to the already-rounded (integer or NaN) stored fields is
the identity, so `finalBalance`, `totalContributions`, `totalGains`,
`inflationAdjustedValue`, `vsSavings`, `vsBonds` are passthroughs of
final-month data; `monthlyIncome` is `round(balance * 0.04 / 12)`; milestone
years and the required rate are stored as `Math.round(x * 10) / 10`. -/
def buildMetrics (finalMonth : MonthData)
    (initialInvestment monthlyContribution annualRate : ℚ) (months : ℕ)
    (targetMonthlyIncome : Option ℚ) : InvestmentMetrics :=
  let requiredRate : ℚ :=
    match targetMonthlyIncome with
    | none => 0
    | some t =>
      if t = 0 then 0
      else
        requiredRateLoop initialInvestment monthlyContribution months
          (t * 12 / (4 / 100)) 501 0
  { finalBalance := finalMonth.balance
    totalContributions := finalMonth.contributions
    totalGains := finalMonth.gains
    inflationAdjustedValue := finalMonth.inflationAdjusted
    monthlyIncome := finalMonth.balance.map (fun b => round ((b : ℚ) * (4 / 100) / 12))
    yearsTo1M :=
      (round (calculateYearsToMilestone initialInvestment monthlyContribution annualRate
        1000000 * 10) : ℚ) / 10
    yearsTo2M :=
      (round (calculateYearsToMilestone initialInvestment monthlyContribution annualRate
        2000000 * 10) : ℚ) / 10
    yearsTo5M :=
      (round (calculateYearsToMilestone initialInvestment monthlyContribution annualRate
        5000000 * 10) : ℚ) / 10
    vsSavings := optSub finalMonth.balance finalMonth.savingsAccount
    vsBonds := optSub finalMonth.balance finalMonth.bonds
    requiredRate := (round (requiredRate * 10) : ℚ) / 10
    withdrawalSustainability := 25 }

/-- Embedding of `calculateInvestmentMetrics` from the source.  It reads
`projections[projections.length - 1]` with no guard: on an empty array that
is `undefined` and the subsequent field access throws, modelled as `none`.
`if (targetMonthlyIncome)` is JS truthiness: `0` and `undefined` both skip
the rate search. -/
def calculateInvestmentMetrics (projections : List MonthData)
    (initialInvestment monthlyContribution annualRate : ℚ)
    (targetMonthlyIncome : Option ℚ) : Option InvestmentMetrics :=
  match projections.getLast? with
  | none => none
  | some finalMonth =>
    some (buildMetrics finalMonth initialInvestment monthlyContribution annualRate
      projections.length targetMonthlyIncome)

lemma getLast?_some_of_ne_nil {α : Type} (l : List α) (hl : l ≠ []) :
    ∃ a, l.getLast? = some a := by
  cases h : l.getLast? with
  | none => exact absurd (List.getLast?_eq_none_iff.mp h) hl
  | some a => exact ⟨a, rfl⟩

/-- First-hit characterisation of the rate-search loop, provided the fuel
covers the remaining candidates. -/
lemma requiredRateLoop_spec (p mc tb : ℚ) (months : ℕ) :
    ∀ (fuel k : ℕ), 501 - k ≤ fuel →
      (∃ j : ℕ, k ≤ j ∧ j ≤ 500 ∧
          fvGe (calculateFutureValue p mc ((j : ℚ) / 10) months) tb = true ∧
          (∀ i : ℕ, k ≤ i → i < j →
            fvGe (calculateFutureValue p mc ((i : ℚ) / 10) months) tb = false) ∧
          requiredRateLoop p mc months tb fuel k = (j : ℚ) / 10) ∨
        ((∀ j : ℕ, k ≤ j → j ≤ 500 →
            fvGe (calculateFutureValue p mc ((j : ℚ) / 10) months) tb = false) ∧
          requiredRateLoop p mc months tb fuel k = 0) := by
  intro fuel
  induction fuel with
  | zero =>
    intro k hk
    right
    refine ⟨?_, rfl⟩
    intro j hkj hj500
    omega
  | succ fuel ih =>
    intro k hk
    simp only [requiredRateLoop]
    by_cases hk500 : k ≤ 500
    · rw [if_pos hk500]
      by_cases hcond : fvGe (calculateFutureValue p mc ((k : ℚ) / 10) months) tb = true
      · rw [if_pos hcond]
        left
        exact ⟨k, le_refl k, hk500, hcond,
          fun i hki hik => absurd hki (by omega), rfl⟩
      · rw [if_neg hcond]
        have hcf : fvGe (calculateFutureValue p mc ((k : ℚ) / 10) months) tb = false := by
          revert hcond
          cases fvGe (calculateFutureValue p mc ((k : ℚ) / 10) months) tb <;> simp
        rcases ih (k + 1) (by omega) with
          ⟨j, hkj, hj500, hfv, hprev, hres⟩ | ⟨hnone, hres⟩
        · left
          refine ⟨j, by omega, hj500, hfv, ?_, hres⟩
          intro i hki hij
          rcases Nat.eq_or_lt_of_le hki with heq | hlt
          · exact heq ▸ hcf
          · exact hprev i (by omega) hij
        · right
          refine ⟨?_, hres⟩
          intro j hkj hj500
          rcases Nat.eq_or_lt_of_le hkj with heq | hlt
          · exact heq ▸ hcf
          · exact hnone j (by omega) hj500
    · rw [if_neg hk500]
      right
      refine ⟨?_, rfl⟩
      intro j hkj hj500
      omega

/-- C8 (amended to a nonzero supplied target income): for a non-empty series
and target monthly income t ≠ 0, the metrics exist and `requiredRate` is the
first candidate k/10 (k = 0..500) whose future value over the series length
meets the target balance t*12/0.04 — every earlier candidate failing — or
the sentinel 0 when no candidate in range qualifies.  A supplied target of
exactly 0 is falsy in JS and skips the search entirely (see the
counterexample), which is why the claim's "every supplied target" fails. -/
theorem metrics_requiredRate_first_candidate (s : List MonthData)
    (p mc rate t : ℚ) (hs : s ≠ []) (ht : t ≠ 0) :
    ∃ M, calculateInvestmentMetrics s p mc rate (some t) = some M ∧
      ((∃ k : ℕ, k ≤ 500 ∧
          fvGe (calculateFutureValue p mc ((k : ℚ) / 10) s.length)
            (t * 12 / (4 / 100)) = true ∧
          (∀ j : ℕ, j < k →
            fvGe (calculateFutureValue p mc ((j : ℚ) / 10) s.length)
              (t * 12 / (4 / 100)) = false) ∧
          M.requiredRate = (k : ℚ) / 10) ∨
        ((∀ k : ℕ, k ≤ 500 →
            fvGe (calculateFutureValue p mc ((k : ℚ) / 10) s.length)
              (t * 12 / (4 / 100)) = false) ∧
          M.requiredRate = 0)) := by
  obtain ⟨fm, hfm⟩ := getLast?_some_of_ne_nil s hs
  refine ⟨buildMetrics fm p mc rate s.length (some t), ?_, ?_⟩
  · unfold calculateInvestmentMetrics
    rw [hfm]
  · have hrr : (buildMetrics fm p mc rate s.length (some t)).requiredRate =
        (round (requiredRateLoop p mc s.length (t * 12 / (4 / 100)) 501 0 * 10) : ℚ) / 10 := by
      simp only [buildMetrics, if_neg ht]
    rcases requiredRateLoop_spec p mc (t * 12 / (4 / 100)) s.length 501 0 (by omega) with
      ⟨j, hj0, hj500, hfv, hprev, hres⟩ | ⟨hnone, hres⟩
    · left
      refine ⟨j, hj500, hfv, fun i hij => hprev i (Nat.zero_le i) hij, ?_⟩
      rw [hrr, hres, div_mul_cancel₀ _ (by norm_num : (10:ℚ) ≠ 0), round_natCast]
      push_cast
      ring
    · right
      refine ⟨fun k hk => hnone k (Nat.zero_le k) hk, ?_⟩
      rw [hrr, hres]
      norm_num

/-- C8 witness: non-empty 12-point series, target income 100; the theorem
yields the metrics record, hence `isSome`. -/
theorem metrics_requiredRate_first_candidate_witness :
    (calculateInvestmentMetrics (calculateProjections 1000 0 1200 1) 1000 0 1200
        (some 100)).isSome = true := by
  obtain ⟨M, hM, _⟩ := metrics_requiredRate_first_candidate
    (calculateProjections 1000 0 1200 1) 1000 0 1200 100
    (by simp [calculateProjections]) (by norm_num)
  rw [hM]
  rfl

/-- C8 counterexample: a supplied target income of exactly 0 is falsy in JS,
so the code skips the search and reports 0; yet candidate 0 (rate 0, NaN
balance) does not meet the target 0 while candidate 1/10 does, so the claim
predicts 1/10 ≠ 0. -/
theorem metrics_requiredRate_zero_income_counterexample :
    (calculateInvestmentMetrics (calculateProjections 1000 0 1200 1) 1000 0 1200
        (some 0)).map (fun M => M.requiredRate) = some 0 ∧
      fvGe (calculateFutureValue 1000 0 ((0 : ℚ) / 10) 12) (0 * 12 / (4 / 100)) = false ∧
      fvGe (calculateFutureValue 1000 0 ((1 : ℚ) / 10) 12) (0 * 12 / (4 / 100)) = true ∧
      ((1 : ℚ) / 10) ≠ 0 := by
  refine ⟨?_, ?_, ?_, by norm_num⟩
  · obtain ⟨fm, hfm⟩ := getLast?_some_of_ne_nil (calculateProjections 1000 0 1200 1)
      (by simp [calculateProjections])
    unfold calculateInvestmentMetrics
    rw [hfm]
    simp [buildMetrics]
  · norm_num
    simp [calculateFutureValue, monthlyRate, fvGe]
  · rw [calculateFutureValue_of_ne_zero _ _ _ _ (by norm_num)]
    simp only [fvGe, decide_eq_true_eq]
    norm_num [fvVal, monthlyRate]

/-- C9: the metrics read the last element of the series without a guard; on
an empty series the access is out of bounds (modelled `none`), and on any
non-empty series the metrics exist and their final-balance field is exactly
the last point's balance field. -/
theorem metrics_needs_nonempty_series (s : List MonthData) (p mc rate : ℚ)
    (tmi : Option ℚ) :
    calculateInvestmentMetrics [] p mc rate tmi = none ∧
      (s ≠ [] →
        (calculateInvestmentMetrics s p mc rate tmi).isSome = true ∧
          (calculateInvestmentMetrics s p mc rate tmi).map (fun M => M.finalBalance) =
            s.getLast?.map (fun pt => pt.balance)) := by
  constructor
  · rfl
  · intro hs
    obtain ⟨fm, hfm⟩ := getLast?_some_of_ne_nil s hs
    unfold calculateInvestmentMetrics
    rw [hfm]
    exact ⟨rfl, by simp [buildMetrics]⟩

/-- C9 witness: a concrete non-empty 12-point series yields metrics, while
the empty series yields none. -/
theorem metrics_needs_nonempty_series_witness :
    (calculateInvestmentMetrics (calculateProjections 1000 0 1200 1) 1000 0 1200
        none).isSome = true ∧
      calculateInvestmentMetrics [] 1000 0 1200 none = none := by
  constructor
  · exact ((metrics_needs_nonempty_series (calculateProjections 1000 0 1200 1)
      1000 0 1200 none).2 (by simp [calculateProjections])).1
  · exact (metrics_needs_nonempty_series [] 1000 0 1200 none).1

/-- C10: `withdrawalSustainability` is the hard-coded constant 25 for every
input on which the metrics are defined at all. -/
theorem metrics_withdrawalSustainability_constant (s : List MonthData)
    (p mc rate : ℚ) (tmi : Option ℚ) :
    (calculateInvestmentMetrics s p mc rate tmi).map
        (fun M => M.withdrawalSustainability) =
      if s.isEmpty then none else some 25 := by
  cases hs : s.getLast? with
  | none =>
    have h : s = [] := List.getLast?_eq_none_iff.mp hs
    subst h
    rfl
  | some fm =>
    have hne : s ≠ [] := by
      intro h
      subst h
      simp at hs
    unfold calculateInvestmentMetrics
    rw [hs, if_neg (by simp [hne])]
    simp [buildMetrics]
